import Mathlib

/-!
# Verification of the launchr calculator engine

Shallow embedding of `src/modules/calculator.rs`: the tokenizer, the
recursive-descent parser/evaluator, the result formatter and the stateful
`CalculatorModule` session, together with theorems settling the frozen
claims about this subsystem.

Modelling conventions:

* Rust `f64` values are modelled by the type `F` below: finite doubles are
  exact rationals, plus explicit positive/negative infinity and NaN.
  Arithmetic on finite values is exact rational arithmetic — an abstraction
  of binary64 rounding/overflow.  Every *concrete* computation appearing in
  a theorem below involves only small integers and short decimal fractions,
  for which binary64 arithmetic is itself exact, so the abstraction is
  faithful on those inputs.  Signed zero is abstracted to a single zero
  (Rust's `==` also identifies `0.0` and `-0.0`, which is the only way the
  evaluator inspects zeroness).
* Results of transcendental operations (`sin`, `cos`, `tan`, `log`, `ln`,
  `exp` on arguments other than their exact special points, `sqrt` of a
  non-square, and `powf` with a non-integer exponent on a positive base)
  are irrational reals that the rational model does not track; they are
  mapped to the dedicated constructor `F.unrep` ("a double whose exact
  value is not represented").  No theorem below depends on such a value.
* `CalculationEntry.timestamp` (a wall-clock value in the source) is
  omitted: no claim mentions timestamps.
-/

deriving instance DecidableEq for Except

/-- `b ^ n` on `ℚ` by structural recursion (kernel-reducible power). -/
def npowQ (b : ℚ) : ℕ → ℚ
  | 0 => 1
  | n + 1 => npowQ b n * b

/-- `b ^ n` on `ℚ` for an integer exponent (`b ≠ 0` at every use site). -/
def zpowQ (b : ℚ) (n : ℤ) : ℚ :=
  if 0 ≤ n then npowQ b n.toNat else npowQ (1 / b) (-n).toNat

/-- Model of an IEEE-754 binary64 value as used by the calculator: an exact
rational for a finite double, a signed infinity (`neg = true` for `-∞`),
`nan`, or `unrep` for a finite double whose exact value the rational model
does not track (see the module docstring). -/
inductive F where
  | num (q : ℚ)
  | inf (neg : Bool)
  | nan
  | unrep
deriving DecidableEq

/-- Absolute value on `ℚ`, written out so that it reduces by `decide`. -/
def qabs (q : ℚ) : ℚ := if q < 0 then -q else q

/-- Unary negation (Rust `-x` on `f64`). -/
def negF : F → F
  | .num q => .num (-q)
  | .inf s => .inf (!s)
  | .nan => .nan
  | .unrep => .unrep

/-- Addition (Rust `+` on `f64`): NaN propagates, opposite infinities give
NaN, an infinity absorbs finite values, finite addition is exact. -/
def addF : F → F → F
  | .nan, _ => .nan
  | _, .nan => .nan
  | .unrep, _ => .unrep
  | _, .unrep => .unrep
  | .inf s, .inf t => if s = t then .inf s else .nan
  | .inf s, .num _ => .inf s
  | .num _, .inf t => .inf t
  | .num a, .num b => .num (a + b)

/-- Subtraction (Rust `-` on `f64`), as addition of the negation, which
agrees with IEEE subtraction on every case. -/
def subF (x y : F) : F := addF x (negF y)

/-- Multiplication (Rust `*` on `f64`): NaN propagates, `∞ * 0` is NaN,
signs of infinities follow the operand signs, finite multiplication is
exact. -/
def mulF : F → F → F
  | .nan, _ => .nan
  | _, .nan => .nan
  | .unrep, _ => .unrep
  | _, .unrep => .unrep
  | .inf s, .inf t => .inf (s != t)
  | .inf s, .num b => if b = 0 then .nan else .inf (s != decide (b < 0))
  | .num a, .inf t => if a = 0 then .nan else .inf (t != decide (a < 0))
  | .num a, .num b => .num (a * b)

/-- Division (Rust `/` on `f64`): NaN propagates, `∞ / ∞` is NaN, a finite
value over an infinity is zero, division by zero follows IEEE (the
evaluator guards this case separately), finite division is exact. -/
def divF : F → F → F
  | .nan, _ => .nan
  | _, .nan => .nan
  | .unrep, _ => .unrep
  | _, .unrep => .unrep
  | .inf _, .inf _ => .nan
  | .inf s, .num b => .inf (s != decide (b < 0))
  | .num _, .inf _ => .num 0
  | .num a, .num b =>
      if b = 0 then (if a = 0 then .nan else .inf (decide (a < 0)))
      else .num (a / b)

/-- Truncation toward zero of a rational, as in Rust's `f64` remainder. -/
def truncQ (q : ℚ) : ℤ :=
  if q < 0 then -(((-q).num.toNat / (-q).den : ℕ) : ℤ)
  else ((q.num.toNat / q.den : ℕ) : ℤ)

/-- Remainder (Rust `%` on `f64`, i.e. C `fmod`): `x % y = x - y*trunc(x/y)`
with the sign of the dividend; `x % 0` and `∞ % y` are NaN, a finite value
mod an infinity is the value itself. -/
def modF : F → F → F
  | .nan, _ => .nan
  | _, .nan => .nan
  | .unrep, _ => .unrep
  | _, .unrep => .unrep
  | .inf _, _ => .nan
  | .num a, .inf _ => .num a
  | .num a, .num b =>
      if b = 0 then .nan
      else .num (a - b * mkRat (truncQ (a / b)) 1)

/-- Exponentiation (Rust `f64::powf`, i.e. C `pow`).  IEEE special cases:
`pow(x, 0) = 1` and `pow(1, y) = 1` for every `x`/`y` (NaN included),
otherwise NaN propagates.  A finite base with an integer exponent is exact
rational `zpow`; a negative finite base with a non-integer exponent is NaN;
a positive finite base with a non-integer exponent is an irrational real,
modelled as `unrep` (no claim exercises that branch). -/
def powF : F → F → F
  | x, .num e =>
      if e = 0 then .num 1
      else
        match x with
        | .nan => .nan
        | .unrep => .unrep
        | .inf s =>
            if 0 < e then .inf (s && e.den == 1 && e.num % 2 != 0)
            else .num 0
        | .num b =>
            if b = 1 then .num 1
            else if e.den = 1 then
              (if b = 0 then (if 0 < e.num then .num 0 else .inf false)
               else .num (zpowQ b e.num))
            else
              (if b < 0 then .nan
               else if b = 0 then (if 0 < e then .num 0 else .inf false)
               else .unrep)
  | .num b, .nan => if b = 1 then .num 1 else .nan
  | _, .nan => .nan
  | .nan, _ => .nan
  | .unrep, _ => .unrep
  | .num b, .inf t =>
      if b = 1 ∨ b = -1 then .num 1
      else if (qabs b < 1) = t then .inf false
      else .num 0
  | .inf _, .inf t => if t then .num 0 else .inf false
  | _, .unrep => .unrep

/-! ## Result formatter (`format_result`) -/

/-- Decimal digits of `n`, most significant first, by repeated division;
`fuel` bounds the recursion (any `fuel > n` is enough). -/
def natDigits : ℕ → ℕ → List Char
  | 0, _ => []
  | fuel + 1, n =>
      if n < 10 then [Nat.digitChar n]
      else natDigits fuel (n / 10) ++ [Nat.digitChar (n % 10)]

/-- Left-pad a digit list with `'0'` up to width `w`. -/
def padZeros (w : ℕ) (l : List Char) : List Char :=
  List.replicate (w - l.length) '0' ++ l

/-- Round `n / d` (with `d > 0`) to the nearest integer, ties to even —
the rounding Rust's `{:.10}` fixed-precision formatting performs on the
exact decimal expansion of the value. -/
def roundHalfEvenNat (n d : ℕ) : ℕ :=
  let q := n / d
  let r := n % d
  if 2 * r < d then q
  else if d < 2 * r then q + 1
  else if q % 2 = 0 then q else q + 1

/-- Strip trailing `'0'`s, then one trailing `'.'` if present — Rust's
`trim_end_matches('0').trim_end_matches('.')` on a string that contains
exactly one `'.'` (so at most one trailing dot can remain after the zero
strip). -/
def stripTrailing (l : List Char) : List Char :=
  let r1 := l.reverse.dropWhile (· == '0')
  let r2 := match r1 with
    | c :: t => if c = '.' then t else c :: t
    | [] => []
  r2.reverse

/-- The characters of `format!("{:.10}", v)` for a finite `v` of magnitude
`mn / 10^10` (`mn` the half-even-rounded numerator), trailing zeros and a
bare trailing dot stripped. -/
def fmtCore (mn : ℕ) : List Char :=
  stripTrailing
    (natDigits (mn / 10 ^ 10 + 1) (mn / 10 ^ 10) ++
      '.' :: padZeros 10 (natDigits (mn % 10 ^ 10 + 1) (mn % 10 ^ 10)))

/-- Character-list form of the calculator's formatting of a finite value:
sign, then the 10-fractional-digit fixed rendering with trailing zeros and
a bare trailing decimal point stripped.  The scaled magnitude
`|q| * 10^10 = (q.num.natAbs * 10^10) / q.den` is rounded half-to-even as
a pure `ℕ` computation. -/
def fmtFixed10Chars (q : ℚ) : List Char :=
  (if q < 0 then ['-'] else []) ++
    fmtCore (roundHalfEvenNat (q.num.natAbs * 10 ^ 10) q.den)

/-- `format_result` from `calculator.rs`: `"Infinity"` for either infinity,
`"NaN"` for NaN, otherwise `{:.10}` fixed formatting with trailing zeros
and a bare trailing decimal point stripped.  (`unrep` stands for an
untracked finite double; its rendering is an unspecified placeholder that
no claim's computation reaches.) -/
def format_result : F → String
  | .inf _ => "Infinity"
  | .nan => "NaN"
  | .unrep => "unrepresented"
  | .num q => ⟨fmtFixed10Chars q⟩

example : format_result (F.num 10) = "10" := by decide
example : format_result (F.num 0) = "0" := by decide
example : format_result (F.num (mkRat 7 2)) = "3.5" := by decide
example : format_result (F.num (mkRat (-1) 4)) = "-0.25" := by decide

/-! ## Parsing of numeric literals (Rust `str::parse::<f64>()`)

Rust's `f64` `FromStr` grammar (used both by the tokenizer on digit/dot
buffers and by `apply_function` on `current_result`):

```
Float  ::= Sign? ( 'inf' | 'infinity' | 'nan' | Number )
Number ::= Digit+ ('.' Digit*)? Exp? | '.' Digit+ Exp?
Exp    ::= ('e' | 'E') Sign? Digit+
```

all case-insensitively.  The decimal value is modelled exactly as a
rational (binary64 rounding of the decimal, and overflow of huge
exponents to infinity, are abstracted away; no claim depends on the
rounded value of a parsed literal). -/

/-- Numeric value of a list of decimal digit characters. -/
def digitsVal (l : List Char) : ℕ :=
  l.foldl (fun a c => 10 * a + (c.toNat - 48)) 0

/-- Exact rational value of `Sign? IntDigits '.' FracDigits 'e' Exp`:
`±(intVal.fracVal) * 10^exp`, assembled as a single `mkRat` over `ℕ`/`ℤ`
arithmetic. -/
def mkF64 (neg : Bool) (intD fracD : List Char) (exp : ℤ) : F :=
  let fl := fracD.length
  let numer : ℤ := (digitsVal intD * 10 ^ fl + digitsVal fracD : ℕ)
  let numer : ℤ := if neg then -numer else numer
  .num
    (if 0 ≤ exp then mkRat (numer * (10 : ℤ) ^ exp.toNat) (10 ^ fl)
     else mkRat numer (10 ^ fl * 10 ^ (-exp).toNat))

/-- Parse the exponent part after `e`: optional sign, then at least one
digit, consuming the whole remainder. -/
def parseExponentPart (l : List Char) : Option ℤ :=
  let sgn : ℤ := match l with
    | '-' :: _ => -1
    | _ => 1
  let l2 := match l with
    | '+' :: r => r
    | '-' :: r => r
    | r => r
  let d := l2.takeWhile Char.isDigit
  if d.isEmpty || !(l2.dropWhile Char.isDigit).isEmpty then none
  else some (sgn * (digitsVal d : ℤ))

/-- Parse a decimal `Number` per the grammar above (`cs` already
lowercased and sign-stripped). -/
def parseDecimalChars (neg : Bool) (cs : List Char) : Option F :=
  let intD := cs.takeWhile Char.isDigit
  let rest1 := cs.dropWhile Char.isDigit
  match rest1 with
  | [] => if intD.isEmpty then none else some (mkF64 neg intD [] 0)
  | '.' :: r =>
      let fracD := r.takeWhile Char.isDigit
      let rest2 := r.dropWhile Char.isDigit
      if intD.isEmpty && fracD.isEmpty then none
      else
        match rest2 with
        | [] => some (mkF64 neg intD fracD 0)
        | 'e' :: er => (parseExponentPart er).map (mkF64 neg intD fracD)
        | _ => none
  | 'e' :: er =>
      if intD.isEmpty then none
      else (parseExponentPart er).map (mkF64 neg intD [] ·)
  | _ => none

/-- Rust `str::parse::<f64>()`. -/
def parseF64 (s : String) : Option F :=
  let cs := s.data.map Char.toLower
  let neg : Bool := match cs with
    | '-' :: _ => true
    | _ => false
  let cs2 := match cs with
    | '+' :: r => r
    | '-' :: r => r
    | r => r
  if cs2 = "inf".data ∨ cs2 = "infinity".data then some (F.inf neg)
  else if cs2 = "nan".data then some F.nan
  else parseDecimalChars neg cs2

example : parseF64 "16" = some (F.num 16) := by decide
example : parseF64 "3.5" = some (F.num (mkRat 7 2)) := by decide
example : parseF64 "-0" = some (F.num 0) := by decide
example : parseF64 "Error" = none := by decide
example : parseF64 "Infinity" = some (F.inf false) := by decide
example : parseF64 "NaN" = some F.nan := by decide
example : parseF64 "" = none := by decide
example : parseF64 "1/0" = none := by decide
example : parseF64 "1e3" = some (F.num 1000) := by decide
example : parseF64 "." = none := by decide
example : parseF64 "1.2.3" = none := by decide

/-! ## Tokenizer (`tokenize` in `calculator.rs`) -/

/-- `Token` from `calculator.rs` (the `Number` payload is the parsed
`f64`, modelled as an exact rational). -/
inductive Token where
  | number (q : ℚ)
  | plus
  | minus
  | multiply
  | divide
  | power
  | modulo
  | lparen
  | rparen
deriving DecidableEq

/-- The operator/parenthesis characters recognised by the tokenizer. -/
def charToken : Char → Option Token
  | '+' => some .plus
  | '-' => some .minus
  | '*' => some .multiply
  | '/' => some .divide
  | '^' => some .power
  | '%' => some .modulo
  | '(' => some .lparen
  | ')' => some .rparen
  | _ => none

/-- Flush the pending numeric-literal buffer through `str::parse::<f64>()`
(Rust's `num_buf.parse()?`); the buffer holds only digit and `'.'`
characters.  Rust's parse error for such a buffer is
`"invalid float literal"`. -/
def flushNumBuf (buf : List Char) : Except String Token :=
  match parseDecimalChars false buf with
  | some (F.num q) => .ok (Token.number q)
  | _ => .error "invalid float literal"

/-- The character loop of `tokenize`: accumulate digits/dots into
`num_buf`, flush it before each operator/parenthesis token, skip spaces,
and reject any other character. -/
def tokenizeChars : List Char → List Char → Except String (List Token)
  | [], buf =>
      if buf.isEmpty then .ok []
      else
        match flushNumBuf buf with
        | .error e => .error e
        | .ok tk => .ok [tk]
  | c :: rest, buf =>
      if c.isDigit || c == '.' then tokenizeChars rest (buf ++ [c])
      else
        match charToken c with
        | some tk =>
            if buf.isEmpty then
              match tokenizeChars rest [] with
              | .error e => .error e
              | .ok ts => .ok (tk :: ts)
            else
              match flushNumBuf buf with
              | .error e => .error e
              | .ok ntk =>
                  match tokenizeChars rest [] with
                  | .error e => .error e
                  | .ok ts => .ok (ntk :: tk :: ts)
        | none =>
            if c = ' ' then tokenizeChars rest buf
            else .error ("Invalid character: " ++ String.singleton c)

/-- `tokenize` from `calculator.rs`. -/
def tokenize (expr : String) : Except String (List Token) :=
  tokenizeChars expr.data []

example : tokenize "1/0" = .ok [.number 1, .divide, .number 0] := by decide
example : tokenize "2^3^2" =
    .ok [.number 2, .power, .number 3, .power, .number 2] := by decide
example : tokenize "1..2" = .error "invalid float literal" := by decide
example : tokenize "1a" = .error "Invalid character: a" := by decide
example : tokenize " 1 + 2 " = .ok [.number 1, .plus, .number 2] := by decide

/-! ## Parser/evaluator (`parse_expression` / `parse_term` / `parse_factor`
/ `parse_primary` in `calculator.rs`)

Each Rust function consumes from a shared token/position cursor and
returns `(value, nextPosition)`.  The Rust `while` loops become the
`..._ops` helper functions below.  Recursion is made structural on an
explicit `fuel` argument; every recursive call either enters a deeper
grammar level or consumes at least one token, so any fuel larger than a
small multiple of the token count is enough (the top-level entry point
supplies `8 * (length + 2)`, and all theorems below are stated about that
entry point). -/

mutual

/-- `parse_expression`: a `term`, then the `('+'|'-') term` loop. -/
def parse_expression (t : List Token) (pos : ℕ) (fuel : ℕ) :
    Except String (F × ℕ) :=
  match fuel with
  | 0 => .error "fuel exhausted"
  | fuel + 1 =>
      match parse_term t pos fuel with
      | .error e => .error e
      | .ok (left, p) => parse_expression_ops t left p fuel
termination_by structural fuel

/-- The `while` loop of `parse_expression`. -/
def parse_expression_ops (t : List Token) (left : F) (pos : ℕ) (fuel : ℕ) :
    Except String (F × ℕ) :=
  match fuel with
  | 0 => .error "fuel exhausted"
  | fuel + 1 =>
      match t.get? pos with
      | some .plus =>
          match parse_term t (pos + 1) fuel with
          | .error e => .error e
          | .ok (right, p) => parse_expression_ops t (addF left right) p fuel
      | some .minus =>
          match parse_term t (pos + 1) fuel with
          | .error e => .error e
          | .ok (right, p) => parse_expression_ops t (subF left right) p fuel
      | _ => .ok (left, pos)
termination_by structural fuel

/-- `parse_term`: a `factor`, then the `('*'|'/'|'%') factor` loop. -/
def parse_term (t : List Token) (pos : ℕ) (fuel : ℕ) :
    Except String (F × ℕ) :=
  match fuel with
  | 0 => .error "fuel exhausted"
  | fuel + 1 =>
      match parse_factor t pos fuel with
      | .error e => .error e
      | .ok (left, p) => parse_term_ops t left p fuel
termination_by structural fuel

/-- The `while` loop of `parse_term`.  A `Divide` whose right operand
compares `== 0.0` is rejected as `"Division by zero"`; `Modulo` has no
such guard in the source. -/
def parse_term_ops (t : List Token) (left : F) (pos : ℕ) (fuel : ℕ) :
    Except String (F × ℕ) :=
  match fuel with
  | 0 => .error "fuel exhausted"
  | fuel + 1 =>
      match t.get? pos with
      | some .multiply =>
          match parse_factor t (pos + 1) fuel with
          | .error e => .error e
          | .ok (right, p) => parse_term_ops t (mulF left right) p fuel
      | some .divide =>
          match parse_factor t (pos + 1) fuel with
          | .error e => .error e
          | .ok (right, p) =>
              if right = F.num 0 then .error "Division by zero"
              else parse_term_ops t (divF left right) p fuel
      | some .modulo =>
          match parse_factor t (pos + 1) fuel with
          | .error e => .error e
          | .ok (right, p) => parse_term_ops t (modF left right) p fuel
      | _ => .ok (left, pos)
termination_by structural fuel

/-- `parse_factor`: a `primary`, then the `'^' primary` loop (hence the
left-associative exponentiation). -/
def parse_factor (t : List Token) (pos : ℕ) (fuel : ℕ) :
    Except String (F × ℕ) :=
  match fuel with
  | 0 => .error "fuel exhausted"
  | fuel + 1 =>
      match parse_primary t pos fuel with
      | .error e => .error e
      | .ok (base, p) => parse_factor_ops t base p fuel
termination_by structural fuel

/-- The `while` loop of `parse_factor`. -/
def parse_factor_ops (t : List Token) (base : F) (pos : ℕ) (fuel : ℕ) :
    Except String (F × ℕ) :=
  match fuel with
  | 0 => .error "fuel exhausted"
  | fuel + 1 =>
      match t.get? pos with
      | some .power =>
          match parse_primary t (pos + 1) fuel with
          | .error e => .error e
          | .ok (exponent, p) => parse_factor_ops t (powF base exponent) p fuel
      | _ => .ok (base, pos)
termination_by structural fuel

/-- `parse_primary`: a number, a unary minus applied to the following
`primary`, or a parenthesised `expression` (whose closing parenthesis is
required). -/
def parse_primary (t : List Token) (pos : ℕ) (fuel : ℕ) :
    Except String (F × ℕ) :=
  match fuel with
  | 0 => .error "fuel exhausted"
  | fuel + 1 =>
      match t.get? pos with
      | none => .error "Unexpected end of expression"
      | some (.number n) => .ok (F.num n, pos + 1)
      | some .minus =>
          match parse_primary t (pos + 1) fuel with
          | .error e => .error e
          | .ok (value, p) => .ok (negF value, p)
      | some .lparen =>
          match parse_expression t (pos + 1) fuel with
          | .error e => .error e
          | .ok (value, p) =>
              match t.get? p with
              | some .rparen => .ok (value, p + 1)
              | _ => .error "Missing closing parenthesis"
      | some _ => .error "Unexpected token"
termination_by structural fuel

end

/-- Leading/trailing whitespace strip (Rust `str::trim`). -/
def trimChars (cs : List Char) : List Char :=
  ((cs.dropWhile Char.isWhitespace).reverse.dropWhile Char.isWhitespace).reverse

/-- `CalculatorModule::evaluate_expression`: trim, return `0.0` for an
empty expression, otherwise tokenize and run a top-level
`parse_expression` from position 0 (any tokens it leaves unconsumed are
ignored, as in the source). -/
def evaluate_expression (expr : String) : Except String F :=
  let e := trimChars expr.data
  if e.isEmpty then .ok (F.num 0)
  else
    match tokenizeChars e [] with
    | .error err => .error err
    | .ok tokens =>
        match parse_expression tokens 0 (8 * (tokens.length + 2)) with
        | .error err => .error err
        | .ok (result, _) => .ok result

example : evaluate_expression "2+3*4" = .ok (F.num 14) := by with_unfolding_all decide
example : evaluate_expression "(2+3)*4" = .ok (F.num 20) := by with_unfolding_all decide
example : evaluate_expression "2^3^2" = .ok (F.num 64) := by with_unfolding_all decide
example : evaluate_expression "-2^2" = .ok (F.num 4) := by with_unfolding_all decide
example : evaluate_expression "1/0" = .error "Division by zero" := by with_unfolding_all decide
example : evaluate_expression "5%0" = .ok F.nan := by with_unfolding_all decide
example : evaluate_expression "" = .ok (F.num 0) := by with_unfolding_all decide
example : evaluate_expression "7+3" = .ok (F.num 10) := by with_unfolding_all decide
example : evaluate_expression "1/" = .error "Unexpected end of expression" := by with_unfolding_all decide
example : evaluate_expression "7%3" = .ok (F.num 1) := by with_unfolding_all decide
example : evaluate_expression "(1+2" = .error "Missing closing parenthesis" := by with_unfolding_all decide
example : evaluate_expression "3.5+1" = .ok (F.num (mkRat 9 2)) := by with_unfolding_all decide

/-! ## The calculation session (`CalculatorModule`)

Each Rust `&mut self` method becomes a pure function
`CalculatorModule → CalculatorModule`. -/

/-- `CalculatorMode` from `calculator.rs`. -/
inductive CalculatorMode where
  | Basic
  | Scientific
deriving DecidableEq

/-- `CalculationEntry` from `calculator.rs` (`timestamp`, a wall-clock
value, is omitted; no claim mentions it). -/
structure CalculationEntry where
  expression : String
  result : String
deriving DecidableEq

/-- `CalculatorModule` from `calculator.rs`. -/
structure CalculatorModule where
  current_expression : String
  current_result : String
  history : List CalculationEntry
  error_message : Option String
  mode : CalculatorMode
deriving DecidableEq

/-- `CalculatorModule::new()`. -/
def CalculatorModule.new : CalculatorModule :=
  { current_expression := ""
    current_result := "0"
    history := []
    error_message := none
    mode := .Basic }

/-- `update_result`: empty buffer shows `"0"`; otherwise non-strict
re-evaluation — on success the formatted value (and the error flag is
cleared), on any failure the raw buffer text (the error flag is left as
it was). -/
def CalculatorModule.update_result (s : CalculatorModule) : CalculatorModule :=
  if s.current_expression = "" then { s with current_result := "0" }
  else
    match evaluate_expression s.current_expression with
    | .ok v => { s with current_result := format_result v, error_message := none }
    | .error _ => { s with current_result := s.current_expression }

/-- `append_digit`: clear the error flag, push the character, re-evaluate. -/
def CalculatorModule.append_digit (s : CalculatorModule) (d : Char) :
    CalculatorModule :=
  CalculatorModule.update_result
    { s with
        error_message := none
        current_expression := ⟨s.current_expression.data ++ [d]⟩ }

/-- The operator characters of `append_operator`'s last-character check and
`append_decimal`'s segment split (`"+-*/^%"`; parentheses are not in this
set). -/
def isOpChar (c : Char) : Bool :=
  c == '+' || c == '-' || c == '*' || c == '/' || c == '^' || c == '%'

/-- The buffer after `append_operator`'s trailing-operator replacement:
pop the last character when it is an operator (`prevents stacked
operators`), leave the buffer alone otherwise. -/
def popTrailingOp (data : List Char) : List Char :=
  match data.getLast? with
  | some c => if isOpChar c then data.dropLast else data
  | none => data

/-- `append_operator`: clear the error flag; on a nonempty buffer, pop a
trailing operator character if present, then push `op`.  No re-evaluation
happens in the source. -/
def CalculatorModule.append_operator (s : CalculatorModule) (op : String) :
    CalculatorModule :=
  if s.current_expression = "" then { s with error_message := none }
  else
    { s with
        error_message := none
        current_expression :=
          ⟨popTrailingOp s.current_expression.data ++ op.data⟩ }

/-- Rust `str::split` on the operator characters, over the character
list: splitting the empty string gives `[[]]`, and a trailing separator
yields a trailing empty segment, exactly as in Rust. -/
def splitOnOps : List Char → List (List Char)
  | [] => [[]]
  | c :: r =>
      if isOpChar c then [] :: splitOnOps r
      else
        match splitOnOps r with
        | [] => [[c]]
        | p :: ps => (c :: p) :: ps

/-- `append_decimal`: clear the error flag; if the trailing numeric
segment has no `'.'` yet, push `"0."` when that segment is empty and
`'.'` otherwise.  No re-evaluation happens in the source. -/
def CalculatorModule.append_decimal (s : CalculatorModule) : CalculatorModule :=
  match (splitOnOps s.current_expression.data).getLast? with
  | some last =>
      if last.contains '.' then { s with error_message := none }
      else if last.isEmpty then
        { s with
            error_message := none
            current_expression := ⟨s.current_expression.data ++ ['0', '.']⟩ }
      else
        { s with
            error_message := none
            current_expression := ⟨s.current_expression.data ++ ['.']⟩ }
  | none => { s with error_message := none }

/-- `backspace`: clear the error flag, pop the last character (a no-op on
an empty buffer), re-evaluate. -/
def CalculatorModule.backspace (s : CalculatorModule) : CalculatorModule :=
  CalculatorModule.update_result
    { s with
        error_message := none
        current_expression := ⟨s.current_expression.data.dropLast⟩ }

/-- `clear`. -/
def CalculatorModule.clear (s : CalculatorModule) : CalculatorModule :=
  { s with
      current_expression := ""
      current_result := "0"
      error_message := none }

/-- `clear_all`. -/
def CalculatorModule.clear_all (s : CalculatorModule) : CalculatorModule :=
  { s.clear with history := [] }

/-- `calculate`: a no-op on an empty buffer; otherwise strict evaluation —
on success push `{expression: old buffer, result: formatted}` onto
history, set the result, and rewrite the buffer to the result (chaining);
on failure set the error flag and show `"Error"`, leaving buffer and
history untouched. -/
def CalculatorModule.calculate (s : CalculatorModule) : CalculatorModule :=
  if s.current_expression = "" then s
  else
    match evaluate_expression s.current_expression with
    | .ok result =>
        let result_str := format_result result
        { s with
            history := s.history ++ [⟨s.current_expression, result_str⟩]
            current_result := result_str
            current_expression := result_str
            error_message := none }
    | .error e =>
        { s with
            error_message := some ("Error: " ++ e)
            current_result := "Error" }

/-- `toggle_mode`. -/
def CalculatorModule.toggle_mode (s : CalculatorModule) : CalculatorModule :=
  { s with
      mode := match s.mode with
        | .Basic => .Scientific
        | .Scientific => .Basic }

/-- `recall_from_history`: copy the indexed entry's result into buffer and
result when the index is in range, otherwise do nothing. -/
def CalculatorModule.recall_from_history (s : CalculatorModule) (index : ℕ) :
    CalculatorModule :=
  match s.history.get? index with
  | some entry =>
      { s with
          current_expression := entry.result
          current_result := entry.result }
  | none => s

/-- `copy_result_to_clipboard` (always `Ok` in the source). -/
def CalculatorModule.copy_result_to_clipboard (s : CalculatorModule) : String :=
  s.current_result

/-! ### `apply_function` -/

/-- Exact rational square root, when one exists. -/
def ratSqrt (q : ℚ) : Option ℚ :=
  let sn := Nat.sqrt q.num.toNat
  let sd := Nat.sqrt q.den
  if sn * sn = q.num.toNat ∧ sd * sd = q.den then some (mkRat sn sd) else none

/-- `f64::sqrt`: NaN on a negative (or NaN) argument, `+∞` on `+∞`; an
exact rational square root where one exists, otherwise an untracked
irrational (`unrep`). -/
def sqrtF : F → F
  | .num q =>
      if q < 0 then .nan
      else match ratSqrt q with
        | some r => .num r
        | none => .unrep
  | .inf false => .inf false
  | .inf true => .nan
  | .nan => .nan
  | .unrep => .unrep

/-- `f64::log10` / `f64::ln` share this shape: NaN on a negative (or NaN)
argument, `-∞` at zero, `0` at one, `+∞` at `+∞`, otherwise an untracked
irrational. -/
def logShapeF : F → F
  | .num q =>
      if q < 0 then .nan
      else if q = 0 then .inf true
      else if q = 1 then .num 0
      else .unrep
  | .inf false => .inf false
  | .inf true => .nan
  | .nan => .nan
  | .unrep => .unrep

/-- `f64::exp`: `1` at zero, `+∞` at `+∞`, `0` at `-∞`, NaN on NaN,
otherwise an untracked irrational. -/
def expF : F → F
  | .num q => if q = 0 then .num 1 else .unrep
  | .inf false => .inf false
  | .inf true => .num 0
  | .nan => .nan
  | .unrep => .unrep

/-- `f64::abs`. -/
def absF : F → F
  | .num q => .num (qabs q)
  | .inf _ => .inf false
  | .nan => .nan
  | .unrep => .unrep

/-- `f64::powi(2)`, i.e. `x * x`. -/
def squareF : F → F
  | .num q => .num (q * q)
  | .inf _ => .inf false
  | .nan => .nan
  | .unrep => .unrep

/-- Degree-to-radian conversion followed by `sin`/`cos`/`tan`: the radian
value involves `π`, so every finite nonzero input is an untracked
irrational; infinities give NaN (IEEE trig of `±∞`), NaN propagates.
Even the special points (e.g. `sin(0) = 0`) are left untracked: no claim
depends on a trigonometric value. -/
def trigShapeF : F → F
  | .nan => .nan
  | .inf _ => .nan
  | _ => .unrep

/-- The `match func` table of `apply_function`: `none` models the
`_ => return` arm. -/
def applyFuncVal (func : String) (x : F) : Option F :=
  if func = "sin" then some (trigShapeF x)
  else if func = "cos" then some (trigShapeF x)
  else if func = "tan" then some (trigShapeF x)
  else if func = "sqrt" then some (sqrtF x)
  else if func = "log" then some (logShapeF x)
  else if func = "ln" then some (logShapeF x)
  else if func = "exp" then some (expF x)
  else if func = "abs" then some (absF x)
  else if func = "1/x" then some (divF (F.num 1) x)
  else if func = "x^2" then some (squareF x)
  else none

/-- Rust `{}` `Display` of the parsed `f64` in the history label
`format!("{}({})", func, current_val)`.  `Display` prints the shortest
round-tripping decimal; for the short decimal values that can appear
here this agrees with the fixed 10-digit rendering with trailing zeros
stripped, which is how it is modelled (no claim examines a label). -/
def displayF : F → String
  | .num q => ⟨fmtFixed10Chars q⟩
  | .inf false => "inf"
  | .inf true => "-inf"
  | .nan => "NaN"
  | .unrep => "unrepresented"

/-- `apply_function`: parse `current_result` as an `f64` (a silent no-op
if that fails), apply the named transform (a silent no-op for an unknown
name), then push a history entry labelled `func(value)` and chain the
formatted result into buffer and result. -/
def CalculatorModule.apply_function (s : CalculatorModule) (func : String) :
    CalculatorModule :=
  match parseF64 s.current_result with
  | none => s
  | some current_val =>
      match applyFuncVal func current_val with
      | none => s
      | some result =>
          let result_str := format_result result
          { s with
              history :=
                s.history ++
                  [⟨func ++ "(" ++ displayF current_val ++ ")", result_str⟩]
              current_expression := result_str
              current_result := result_str }

/-! ### Reachable session states -/

/-- The session states reachable from `CalculatorModule::new()` by any
sequence of the public mutators (with arbitrary arguments, as the public
Rust signatures allow). -/
inductive Reachable : CalculatorModule → Prop
  | start : Reachable CalculatorModule.new
  | digit (s : CalculatorModule) (d : Char) :
      Reachable s → Reachable (s.append_digit d)
  | oper (s : CalculatorModule) (op : String) :
      Reachable s → Reachable (s.append_operator op)
  | dec (s : CalculatorModule) :
      Reachable s → Reachable s.append_decimal
  | back (s : CalculatorModule) :
      Reachable s → Reachable s.backspace
  | clearStep (s : CalculatorModule) :
      Reachable s → Reachable s.clear
  | clearAllStep (s : CalculatorModule) :
      Reachable s → Reachable s.clear_all
  | calcStep (s : CalculatorModule) :
      Reachable s → Reachable s.calculate
  | funcStep (s : CalculatorModule) (func : String) :
      Reachable s → Reachable (s.apply_function func)
  | modeStep (s : CalculatorModule) :
      Reachable s → Reachable s.toggle_mode
  | recallStep (s : CalculatorModule) (i : ℕ) :
      Reachable s → Reachable (s.recall_from_history i)

example :
    (((CalculatorModule.new.append_digit '7').append_operator "+").append_digit
        '3').calculate =
      { current_expression := "10"
        current_result := "10"
        history := [⟨"7+3", "10"⟩]
        error_message := none
        mode := .Basic } := by with_unfolding_all decide

example :
    (((CalculatorModule.new.append_digit '1').append_operator "/").append_digit
        '0').calculate =
      { current_expression := "1/0"
        current_result := "Error"
        history := []
        error_message := some "Error: Division by zero"
        mode := .Basic } := by with_unfolding_all decide

example :
    (((CalculatorModule.new.append_digit '1').append_operator "/").append_digit
        '0').current_result = "1/0" := by with_unfolding_all decide

/-! ## Helper lemmas

### Characters producible by the formatter

`format_result` on a finite value only ever emits decimal digits, `'-'`
and `'.'`; this is what separates a formatted number string from raw
buffer text such as `"1/0"`. -/

/-- The characters that can appear in a formatted finite number. -/
def okChars : List Char :=
  ['-', '.', '0', '1', '2', '3', '4', '5', '6', '7', '8', '9']

theorem digitChar_mem_okChars (n : ℕ) (h : n < 10) :
    Nat.digitChar n ∈ okChars := by
  interval_cases n <;> decide

theorem natDigits_mem_okChars (fuel n : ℕ) (c : Char)
    (hc : c ∈ natDigits fuel n) : c ∈ okChars := by
  induction fuel generalizing n with
  | zero => simp [natDigits] at hc
  | succ f ih =>
      simp only [natDigits] at hc
      split at hc
      · next h =>
          simp only [List.mem_singleton] at hc
          exact hc ▸ digitChar_mem_okChars n h
      · rcases List.mem_append.mp hc with h1 | h2
        · exact ih _ h1
        · simp only [List.mem_singleton] at h2
          exact h2 ▸ digitChar_mem_okChars _ (Nat.mod_lt _ (by omega))

theorem mem_of_mem_dropWhile {p : Char → Bool} :
    ∀ (l : List Char) (c : Char), c ∈ l.dropWhile p → c ∈ l := by
  intro l
  induction l with
  | nil => intro c hc; simp [List.dropWhile] at hc
  | cons a t ih =>
      intro c hc
      rw [List.dropWhile_cons] at hc
      split at hc
      · exact List.mem_cons_of_mem a (ih c hc)
      · exact hc

theorem mem_of_mem_stripTrailing (l : List Char) (c : Char)
    (hc : c ∈ stripTrailing l) : c ∈ l := by
  unfold stripTrailing at hc
  rw [List.mem_reverse] at hc
  have step : c ∈ l.reverse.dropWhile (· == '0') := by
    split at hc
    · next a t heq =>
        rw [heq]
        split at hc
        · exact List.mem_cons_of_mem a hc
        · exact hc
    · exact absurd hc (by simp)
  exact List.mem_reverse.mp (mem_of_mem_dropWhile l.reverse c step)

theorem mem_okChars_of_mem_padZeros (w : ℕ) (l : List Char) (c : Char)
    (hl : ∀ x ∈ l, x ∈ okChars) (hc : c ∈ padZeros w l) : c ∈ okChars := by
  unfold padZeros at hc
  rcases List.mem_append.mp hc with h1 | h2
  · rw [List.eq_of_mem_replicate h1]; decide
  · exact hl c h2

theorem fmtCore_mem_okChars (mn : ℕ) (c : Char) (hc : c ∈ fmtCore mn) :
    c ∈ okChars := by
  unfold fmtCore at hc
  have hc2 := mem_of_mem_stripTrailing _ _ hc
  rcases List.mem_append.mp hc2 with h1 | h2
  · exact natDigits_mem_okChars _ _ _ h1
  · rcases List.mem_cons.mp h2 with h3 | h4
    · rw [h3]; decide
    · exact mem_okChars_of_mem_padZeros _ _ _
        (fun x hx => natDigits_mem_okChars _ _ _ hx) h4

theorem fmtFixed10Chars_mem_okChars (q : ℚ) (c : Char)
    (hc : c ∈ fmtFixed10Chars q) : c ∈ okChars := by
  unfold fmtFixed10Chars at hc
  rcases List.mem_append.mp hc with h1 | h2
  · split at h1
    · simp only [List.mem_singleton] at h1
      rw [h1]; decide
    · exact absurd h1 (by simp)
  · exact fmtCore_mem_okChars _ _ h2

/-- No finite value formats to the raw buffer text `"1/0"`: the slash is
not a formatter character (and the `Infinity`/`NaN`/placeholder renderings
are different strings). -/
theorem format_result_ne_raw (v : F) : format_result v ≠ "1/0" := by
  cases v with
  | num q =>
      intro h
      have hd : fmtFixed10Chars q = "1/0".data := congrArg String.data h
      have hmem : '/' ∈ fmtFixed10Chars q := by
        rw [hd]; decide
      have := fmtFixed10Chars_mem_okChars q '/' hmem
      exact absurd this (by decide)
  | inf s => cases s <;> decide
  | nan => decide
  | unrep => decide

/-! ### The non-strict live-preview function, as the spec words it -/

/-- The spec's description of the live preview (spec §4.4): re-evaluate
the buffer through the non-strict path; an empty buffer previews as
`"0"`, a successful evaluation as the formatted value, and any failure as
the raw, unevaluated buffer text. -/
def live_preview (buffer : String) : String :=
  if buffer = "" then "0"
  else
    match evaluate_expression buffer with
    | .ok v => format_result v
    | .error _ => buffer

/-! ### Field behaviour of the session operations -/

theorem update_result_current_result (s : CalculatorModule) :
    s.update_result.current_result = live_preview s.current_expression := by
  unfold CalculatorModule.update_result live_preview
  by_cases he : s.current_expression = ""
  · simp only [if_pos he]
  · simp only [if_neg he]
    cases h : evaluate_expression s.current_expression <;> rfl

theorem update_result_fields (s : CalculatorModule) :
    s.update_result.current_expression = s.current_expression ∧
      s.update_result.history = s.history ∧ s.update_result.mode = s.mode := by
  unfold CalculatorModule.update_result
  by_cases he : s.current_expression = ""
  · rw [if_pos he]; exact ⟨rfl, rfl, rfl⟩
  · rw [if_neg he]
    cases h : evaluate_expression s.current_expression <;> exact ⟨rfl, rfl, rfl⟩

theorem append_operator_fields (s : CalculatorModule) (op : String) :
    (s.append_operator op).current_result = s.current_result ∧
      (s.append_operator op).history = s.history ∧
      (s.append_operator op).mode = s.mode := by
  unfold CalculatorModule.append_operator
  by_cases he : s.current_expression = ""
  · rw [if_pos he]; exact ⟨rfl, rfl, rfl⟩
  · rw [if_neg he]; exact ⟨rfl, rfl, rfl⟩

/-- `apply_function` either leaves the session untouched (unparsable
result or unknown function name) or chains a formatted value, appending
one history entry. -/
theorem apply_function_cases (s : CalculatorModule) (func : String) :
    s.apply_function func = s ∨
      ∃ v r, s.apply_function func =
        { s with
            history :=
              s.history ++
                [⟨func ++ "(" ++ displayF v ++ ")", format_result r⟩]
            current_expression := format_result r
            current_result := format_result r } := by
  unfold CalculatorModule.apply_function
  split
  · exact Or.inl rfl
  · split
    · exact Or.inl rfl
    · exact Or.inr ⟨_, _, rfl⟩

theorem append_decimal_fields (s : CalculatorModule) :
    s.append_decimal.current_result = s.current_result ∧
      s.append_decimal.history = s.history ∧
      s.append_decimal.mode = s.mode := by
  unfold CalculatorModule.append_decimal
  split
  · split
    · exact ⟨rfl, rfl, rfl⟩
    · split
      · exact ⟨rfl, rfl, rfl⟩
      · exact ⟨rfl, rfl, rfl⟩
  · exact ⟨rfl, rfl, rfl⟩

/-! ### The session invariant behind claim C2 -/

/-- The shapes `current_result` can take: the committed `"Error"` marker,
a formatted value (this also covers the initial `"0"`, which is
`format_result (F.num 0)`), or the live-preview fallback — a nonempty
buffer text whose evaluation fails. -/
def ResultOk (r : String) : Prop :=
  r = "Error" ∨ (∃ v : F, format_result v = r) ∨
    (r ≠ "" ∧ ∃ e, evaluate_expression r = Except.error e)

/-- Every history entry's `result` field is a formatted value. -/
def HistOk (h : List CalculationEntry) : Prop :=
  ∀ en ∈ h, ∃ v : F, format_result v = en.result

theorem update_result_resultOk (s : CalculatorModule) :
    ResultOk s.update_result.current_result := by
  unfold CalculatorModule.update_result
  by_cases he : s.current_expression = ""
  · simp only [if_pos he]
    exact Or.inr (Or.inl ⟨F.num 0, by decide⟩)
  · simp only [if_neg he]
    cases h : evaluate_expression s.current_expression with
    | ok v => exact Or.inr (Or.inl ⟨v, rfl⟩)
    | error e => exact Or.inr (Or.inr ⟨he, e, h⟩)

/-- The session invariant, by induction over reachability: the displayed
result is always `"Error"`, a formatted value, or a failed raw buffer
text, and every history entry holds a formatted result. -/
theorem session_inv (s : CalculatorModule) (hs : Reachable s) :
    ResultOk s.current_result ∧ HistOk s.history := by
  induction hs with
  | start =>
      refine ⟨Or.inr (Or.inl ⟨F.num 0, by decide⟩), ?_⟩
      intro en hen
      exact absurd hen (by simp [CalculatorModule.new])
  | digit s d h ih =>
      unfold CalculatorModule.append_digit
      refine ⟨update_result_resultOk _, ?_⟩
      rw [(update_result_fields _).2.1]
      exact ih.2
  | oper s op h ih =>
      refine ⟨?_, ?_⟩
      · rw [(append_operator_fields s op).1]; exact ih.1
      · rw [(append_operator_fields s op).2.1]; exact ih.2
  | dec s h ih =>
      refine ⟨?_, ?_⟩
      · rw [(append_decimal_fields s).1]; exact ih.1
      · rw [(append_decimal_fields s).2.1]; exact ih.2
  | back s h ih =>
      unfold CalculatorModule.backspace
      refine ⟨update_result_resultOk _, ?_⟩
      rw [(update_result_fields _).2.1]
      exact ih.2
  | clearStep s h ih =>
      refine ⟨Or.inr (Or.inl ⟨F.num 0, ?_⟩), ih.2⟩
      show format_result (F.num 0) = "0"
      decide
  | clearAllStep s h ih =>
      refine ⟨Or.inr (Or.inl ⟨F.num 0, ?_⟩), ?_⟩
      · show format_result (F.num 0) = "0"
        decide
      · intro en hen
        exact absurd hen (List.not_mem_nil en)
  | calcStep s h ih =>
      unfold CalculatorModule.calculate
      by_cases he : s.current_expression = ""
      · simp only [if_pos he]; exact ih
      · simp only [if_neg he]
        cases hev : evaluate_expression s.current_expression with
        | ok v =>
            refine ⟨Or.inr (Or.inl ⟨v, rfl⟩), ?_⟩
            intro en hen
            simp only [List.mem_append, List.mem_singleton] at hen
            rcases hen with h1 | h2
            · exact ih.2 en h1
            · subst h2; exact ⟨v, rfl⟩
        | error e => exact ⟨Or.inl rfl, ih.2⟩
  | funcStep s func h ih =>
      rcases apply_function_cases s func with heq | ⟨v, r, heq⟩
      · rw [heq]; exact ih
      · rw [heq]
        refine ⟨Or.inr (Or.inl ⟨r, rfl⟩), ?_⟩
        intro en hen
        simp only [List.mem_append, List.mem_singleton] at hen
        rcases hen with h1 | h2
        · exact ih.2 en h1
        · subst h2; exact ⟨r, rfl⟩
  | modeStep s h ih => exact ⟨ih.1, ih.2⟩
  | recallStep s i h ih =>
      unfold CalculatorModule.recall_from_history
      cases hg : s.history.get? i with
      | none => exact ih
      | some en =>
          refine ⟨?_, ih.2⟩
          rcases ih.2 en (List.get?_mem hg) with ⟨v, hv⟩
          exact Or.inr (Or.inl ⟨v, hv⟩)

/-! ## The claims -/

/-- The session after `append_digit('7'); append_operator("+");
append_digit('3')` (spec Scenario A, before the commit). -/
def scenarioA_pre : CalculatorModule :=
  ((CalculatorModule.new.append_digit '7').append_operator "+").append_digit '3'

/-- The session after `append_digit('1'); append_operator("/");
append_digit('0')` (spec Scenario B, before the commit). -/
def scenarioB_pre : CalculatorModule :=
  ((CalculatorModule.new.append_digit '1').append_operator "/").append_digit '0'

/-- Claim C1, counterexample: the claim says a modulo whose right-hand
operand is zero returns an `ArithmeticError` and never a NaN, but
`parse_term` has no zero guard on `Modulo`: evaluating `"5%0"` returns
`Ok` of IEEE NaN (which then displays as `"NaN"`). -/
theorem c1_counterexample :
    evaluate_expression "5%0" = Except.ok F.nan ∧
      format_result F.nan = "NaN" :=
  ⟨by with_unfolding_all decide, by decide⟩

/-- Claim C1, amended: division by a zero right-hand operand is an
`ArithmeticError` (`evaluate("1/0")` is the error `"Division by zero"`),
but modulo by zero is not checked and propagates as the non-error IEEE
NaN (`evaluate("5%0")` is `Ok NaN`). -/
theorem c1_div_zero_error_mod_zero_nan :
    evaluate_expression "1/0" = Except.error "Division by zero" ∧
      evaluate_expression "5%0" = Except.ok F.nan :=
  ⟨by with_unfolding_all decide, by with_unfolding_all decide⟩

/-- Claim C2, counterexample: the reachable state reached by
`append_digit('1'); append_operator("/"); append_digit('0')` has
`current_result = "1/0"` — the raw buffer text shown by the live-preview
fallback — which is none of `"Error"`, `"Infinity"`, `"NaN"`, nor any
canonically formatted number (`format_result` never emits `'/'`). -/
theorem c2_counterexample :
    Reachable scenarioB_pre ∧ scenarioB_pre.current_result = "1/0" ∧
      ¬(scenarioB_pre.current_result = "Error" ∨
        scenarioB_pre.current_result = "Infinity" ∨
        scenarioB_pre.current_result = "NaN" ∨
        ∃ v : F, format_result v = scenarioB_pre.current_result) := by
  have hres : scenarioB_pre.current_result = "1/0" := by
    with_unfolding_all decide
  refine ⟨.digit _ '0' (.oper _ "/" (.digit _ '1' .start)), hres, ?_⟩
  intro h
  rw [hres] at h
  rcases h with h | h | h | ⟨v, hv⟩
  · exact absurd h (by decide)
  · exact absurd h (by decide)
  · exact absurd h (by decide)
  · exact format_result_ne_raw v hv

/-- Claim C2, amended: on every reachable session state,
`current_result` is `"Error"`, a canonically formatted value (the image
of `format_result`, which includes the initial `"0"`, `"Infinity"` and
`"NaN"`), or the raw text of a nonempty buffer whose evaluation fails —
the live-preview fallback. -/
theorem c2_result_shape (s : CalculatorModule) (hs : Reachable s) :
    s.current_result = "Error" ∨
      (∃ v : F, format_result v = s.current_result) ∨
      (s.current_result ≠ "" ∧
        ∃ e, evaluate_expression s.current_result = Except.error e) :=
  (session_inv s hs).1

theorem c2_result_shape_witness :
    Reachable CalculatorModule.new ∧
      (CalculatorModule.new.current_result = "Error" ∨
        (∃ v : F, format_result v = CalculatorModule.new.current_result) ∨
        (CalculatorModule.new.current_result ≠ "" ∧
          ∃ e, evaluate_expression CalculatorModule.new.current_result =
            Except.error e)) :=
  ⟨Reachable.start, c2_result_shape CalculatorModule.new Reachable.start⟩

/-- Claim C3, counterexample: `append_operator` is an edit operation that
mutates the buffer (here to `"1/"`, whose evaluation fails) but performs
no re-evaluation: `current_result` stays `"1"` instead of becoming the
raw buffer text `"1/"` that the claim requires on failure. -/
theorem c3_counterexample :
    ((CalculatorModule.new.append_digit '1').append_operator
          "/").current_expression = "1/" ∧
      ((CalculatorModule.new.append_digit '1').append_operator
          "/").current_result = "1" ∧
      evaluate_expression "1/" = Except.error "Unexpected end of expression" ∧
      live_preview "1/" = "1/" ∧
      ("1" : String) ≠ "1/" := by
  refine ⟨?_, ?_, ?_, ?_, by decide⟩ <;> with_unfolding_all decide

/-- Claim C3, amended: among the edit operations, only `append_digit` and
`backspace` re-evaluate the buffer through the non-strict path (their
`current_result` is the live preview of the mutated buffer: the formatted
value on success, the raw buffer text on failure, `"0"` when empty);
`append_operator` and `append_decimal` mutate the buffer without
re-evaluating and leave `current_result` unchanged. -/
theorem c3_live_preview (s : CalculatorModule) (d : Char) (op : String) :
    (s.append_digit d).current_result =
        live_preview (s.append_digit d).current_expression ∧
      s.backspace.current_result =
        live_preview s.backspace.current_expression ∧
      (s.append_operator op).current_result = s.current_result ∧
      s.append_decimal.current_result = s.current_result := by
  refine ⟨?_, ?_, (append_operator_fields s op).1, (append_decimal_fields s).1⟩
  · unfold CalculatorModule.append_digit
    rw [(update_result_fields _).1, update_result_current_result]
  · unfold CalculatorModule.backspace
    rw [(update_result_fields _).1, update_result_current_result]

/-- Claim C4: whenever strict evaluation of the buffer fails, `calculate`
sets the error flag to the descriptive message, displays `"Error"`, and
leaves the buffer, the history and the mode unchanged. -/
theorem c4_calculate_failure (s : CalculatorModule) (e : String)
    (h : evaluate_expression s.current_expression = Except.error e) :
    s.calculate =
      { s with
          error_message := some ("Error: " ++ e)
          current_result := "Error" } := by
  unfold CalculatorModule.calculate
  by_cases he : s.current_expression = ""
  · have h0 : evaluate_expression "" = Except.ok (F.num 0) := by
      with_unfolding_all decide
    rw [he, h0] at h
    exact Except.noConfusion h
  · rw [if_neg he, h]

theorem c4_calculate_failure_witness :
    evaluate_expression scenarioB_pre.current_expression =
        Except.error "Division by zero" ∧
      scenarioB_pre.calculate =
        { current_expression := "1/0"
          current_result := "Error"
          history := []
          error_message := some "Error: Division by zero"
          mode := .Basic } :=
  ⟨by with_unfolding_all decide,
    (c4_calculate_failure scenarioB_pre "Division by zero"
        (by with_unfolding_all decide)).trans
      (by with_unfolding_all decide)⟩

/-- Claim C5: whenever the buffer is nonempty and its strict evaluation
succeeds, `calculate` appends exactly one history entry
`{expression: old buffer, result: formatted value}` at the end, sets
`current_result` to the formatted value, rewrites `current_expression` to
that same value (chaining), and clears the error flag. -/
theorem c5_calculate_success (s : CalculatorModule) (v : F)
    (hne : s.current_expression ≠ "")
    (h : evaluate_expression s.current_expression = Except.ok v) :
    s.calculate =
      { s with
          history := s.history ++ [⟨s.current_expression, format_result v⟩]
          current_result := format_result v
          current_expression := format_result v
          error_message := none } := by
  unfold CalculatorModule.calculate
  rw [if_neg hne, h]

theorem c5_calculate_success_witness :
    scenarioA_pre.current_expression = "7+3" ∧
      evaluate_expression "7+3" = Except.ok (F.num 10) ∧
      scenarioA_pre.calculate =
        { current_expression := "10"
          current_result := "10"
          history := [⟨"7+3", "10"⟩]
          error_message := none
          mode := .Basic } :=
  ⟨by with_unfolding_all decide, by with_unfolding_all decide,
    (c5_calculate_success scenarioA_pre (F.num 10)
        (by with_unfolding_all decide) (by with_unfolding_all decide)).trans
      (by with_unfolding_all decide)⟩

/-- Claim C6: exponentiation is evaluated left-associatively —
`evaluate("2^3^2")` is `(2^3)^2 = 64`, not the right-associative `512`. -/
theorem c6_pow_left_assoc :
    evaluate_expression "2^3^2" = Except.ok (F.num 64) ∧
      evaluate_expression "2^3^2" ≠ Except.ok (F.num 512) := by
  have h : evaluate_expression "2^3^2" = Except.ok (F.num 64) := by
    with_unfolding_all decide
  exact ⟨h, by rw [h]; decide⟩

/-- Claim C7: unary minus binds at the `primary` level, beneath `^`:
`evaluate("-2^2")` computes `(-2)^2 = 4`, not `-(2^2) = -4`. -/
theorem c7_unary_minus_binding :
    evaluate_expression "-2^2" = Except.ok (F.num 4) ∧
      evaluate_expression "-2^2" ≠ Except.ok (F.num (-4)) := by
  have h : evaluate_expression "-2^2" = Except.ok (F.num 4) := by
    with_unfolding_all decide
  exact ⟨h, by rw [h]; decide⟩

/-- Claim C9: `recall_from_history` with an out-of-range index, and
`apply_function` when `current_result` does not parse as an `f64`, are
both silent no-ops: the entire session state is returned unchanged. -/
theorem c9_noop_safety :
    (∀ (s : CalculatorModule) (i : ℕ),
        s.history.length ≤ i → s.recall_from_history i = s) ∧
      ∀ (s : CalculatorModule) (func : String),
        parseF64 s.current_result = none → s.apply_function func = s := by
  constructor
  · intro s i hi
    unfold CalculatorModule.recall_from_history
    rw [List.get?_eq_none.mpr hi]
  · intro s func hp
    unfold CalculatorModule.apply_function
    rw [hp]

/-- A session whose displayed result is the non-numeric `"Error"`. -/
def errorResultState : CalculatorModule :=
  { CalculatorModule.new with current_result := "Error" }

theorem c9_noop_safety_witness :
    CalculatorModule.new.history.length ≤ 3 ∧
      CalculatorModule.new.recall_from_history 3 = CalculatorModule.new ∧
      parseF64 errorResultState.current_result = none ∧
      errorResultState.apply_function "sin" = errorResultState :=
  ⟨by decide, c9_noop_safety.1 CalculatorModule.new 3 (by decide),
    by decide, c9_noop_safety.2 errorResultState "sin" (by decide)⟩

/-- Claim C10: on an empty buffer, `append_operator` discards the
operator entirely — the whole session is unchanged except that the error
flag is cleared. -/
theorem c10_append_operator_empty (s : CalculatorModule) (op : String)
    (h : s.current_expression = "") :
    s.append_operator op = { s with error_message := none } := by
  unfold CalculatorModule.append_operator
  rw [if_pos h]

theorem c10_append_operator_empty_witness :
    CalculatorModule.new.current_expression = "" ∧
      CalculatorModule.new.append_operator "+" = CalculatorModule.new :=
  ⟨rfl,
    (c10_append_operator_empty CalculatorModule.new "+" rfl).trans (by decide)⟩
example : format_result F.nan = "NaN" := by decide
